import Mathlib

/-!
# Verification of the downsample data-loading and evaluation pipeline

Shallow embedding of `src/downsample/prepare_data.py` and
`src/downsample/RF_train_and_evaluate.py`.

Modelling conventions:
* A numpy 2-D array is `NpArr`: the number of columns (`shape[1]`) is stored
  explicitly, as a real `.npy` file stores its shape even when it has zero rows;
  rectangularity (`every row has length ncols`) is the well-formedness predicate
  `NpArr.WF`, an invariant of genuine numpy arrays that the embedding carries as
  a hypothesis.
* Numeric values are `Rat` (the claims under study are structural — lengths,
  ordering, zero rows, strict comparisons — not about floating-point rounding).
* A pandas DataFrame read from a manifest CSV is `Manifest`: the column
  selection by `feature_column` / `label_column` / `weight_column` is abstracted
  into the fields of `ManifestRow`, and `hasWeightColumn` records whether the
  weight column is present in `df.columns`.
* The file system is `FileSystem`: `npyFiles` models `np.load` together with
  `os.path.exists` (a path maps to `some` array exactly when the file exists),
  `csvFiles` models `pd.read_csv` (reading a missing manifest is the fatal
  error the Python call raises).
* `StandardScaler` is an sklearn library object, not repository code; the
  wrappers are parametrised by its two operations `fit_transform` (returning
  the transformed matrix and the fitted scaler) and `transform`.
* Python exceptions of `load_data` become the `Except LoadError` monad;
  per-row warnings are stdout side effects with no data-flow and are not
  modelled.
-/

/-- `os.path.basename`, restricted to `/`-separated paths as used here:
the suffix of the path after the last `/`. Implemented by a structural
scan over the characters so that it evaluates by kernel reduction. -/
def basenameAux : List Char → List Char → List Char
  | [], acc => acc.reverse
  | c :: cs, acc => if c = '/' then basenameAux cs [] else basenameAux cs (c :: acc)

/-- `os.path.basename p`. -/
def basename (p : String) : String :=
  ⟨basenameAux p.data []⟩

/-- `os.path.join dir b` for a directory with no trailing separator. -/
def path_join (dir b : String) : String :=
  dir ++ "/" ++ b

/-- A numpy 2-D array of shape `(rows.length, ncols)`. -/
structure NpArr where
  ncols : Nat
  rows : List (List Rat)
deriving DecidableEq, Repr

/-- Rectangularity: every row has exactly `ncols` entries.  True of every
array loaded from a genuine 2-D `.npy` file. -/
def NpArr.WF (a : NpArr) : Prop :=
  ∀ r ∈ a.rows, r.length = a.ncols

instance (a : NpArr) : Decidable a.WF := by
  unfold NpArr.WF; infer_instance

/-- One row of a manifest CSV, after column selection: the feature-file path
(`row[feature_column]`), the class label (`row[label_column]`) and the sample
weight (`row[weight_column]`; meaningful only when the manifest has the
weight column). -/
structure ManifestRow where
  feature_file : String
  label : Int
  weight : Rat
deriving DecidableEq, Repr

/-- A manifest CSV as read by `pd.read_csv`; `hasWeightColumn` records
whether `weight_column in df.columns`. -/
structure Manifest where
  rows : List ManifestRow
  hasWeightColumn : Bool
deriving DecidableEq, Repr

/-- The file system seen by the loader: `.npy` feature files and manifest
CSVs, each `some` exactly when the file exists. -/
structure FileSystem where
  npyFiles : String → Option NpArr
  csvFiles : String → Option Manifest

/-- The path at which a manifest row's feature file is looked up:
`os.path.join(primary_feature_dir, os.path.basename(row[feature_column]))`. -/
def resolve_path (primary_feature_dir : String) (row : ManifestRow) : String :=
  path_join primary_feature_dir (basename row.feature_file)

/-- Fatal errors of the loader: the `ValueError` for a missing
`target_length`, and the `FileNotFoundError` from `pd.read_csv` on a missing
manifest. -/
inductive LoadError where
  | targetLengthNone
  | manifestMissing
deriving DecidableEq, Repr

/-- `get_max_sequence_length(label_info_path, primary_feature_dir,
feature_column)` from `prepare_data.py`: reads the manifest, and for each row
whose resolved feature file exists, folds the maximum of the first dimension,
starting from `0`; rows with a missing file are skipped. -/
def get_max_sequence_length (fs : FileSystem)
    (label_info_path primary_feature_dir : String) : Except LoadError Nat :=
  match fs.csvFiles label_info_path with
  | none => .error .manifestMissing
  | some df =>
    .ok (df.rows.foldl
      (fun max_length row =>
        match fs.npyFiles (resolve_path primary_feature_dir row) with
        | none => max_length
        | some feature_data => max max_length feature_data.rows.length)
      0)

/-- The truncate/pad block inside `load_data`'s loop: truncate to the first
`target_length` rows if too long, else pad by appending
`np.zeros((target_length - shape[0], shape[1]))`, else leave unchanged. -/
def normalize_length (target_length : Nat) (a : NpArr) : NpArr :=
  if a.rows.length > target_length then
    ⟨a.ncols, a.rows.take target_length⟩
  else if a.rows.length < target_length then
    ⟨a.ncols, a.rows ++ List.replicate (target_length - a.rows.length)
      (List.replicate a.ncols 0)⟩
  else a

/-- `feature_data.flatten()` after normalization: row-major flattening of the
2-D array into a 1-D vector. -/
def flatten_normalized (target_length : Nat) (a : NpArr) : List Rat :=
  (normalize_length target_length a).rows.flatten

/-- The `for _, row in df.iterrows()` loop of `load_data`: rows whose feature
file is missing are skipped, every other row appends its flattened normalized
feature vector, its label and its weight to the three accumulating lists. -/
def load_data_loop (fs : FileSystem) (primary_feature_dir : String)
    (target_length : Nat) :
    List ManifestRow → List (List Rat) × List Int × List Rat →
      List (List Rat) × List Int × List Rat
  | [], acc => acc
  | row :: rest, acc =>
    match fs.npyFiles (resolve_path primary_feature_dir row) with
    | none => load_data_loop fs primary_feature_dir target_length rest acc
    | some feature_data =>
      load_data_loop fs primary_feature_dir target_length rest
        (acc.1 ++ [flatten_normalized target_length feature_data],
         acc.2.1 ++ [row.label],
         acc.2.2 ++ [row.weight])

/-- The `if weight_column not in df.columns: df[weight_column] = 1` step of
`load_data`: when the weight column is absent, set every sample's weight to
`1` (the Python also prints a one-line warning, a side effect with no
data-flow). -/
def default_weights (df : Manifest) : Manifest :=
  if df.hasWeightColumn then df
  else ⟨df.rows.map (fun r => ⟨r.feature_file, r.label, 1⟩), true⟩

/-- `load_data(label_info_path, primary_feature_dir, feature_column,
label_column, target_length, weight_column)` from `prepare_data.py`:
raises `ValueError` when `target_length is None` (before any file access),
reads the manifest (fatal if missing), defaults every weight to `1` when the
weight column is absent, then runs the row loop and returns the three
parallel lists `(features, labels, sample_weights)`. -/
def load_data (fs : FileSystem) (label_info_path primary_feature_dir : String)
    (target_length : Option Nat) :
    Except LoadError (List (List Rat) × List Int × List Rat) :=
  match target_length with
  | none => .error .targetLengthNone
  | some tl =>
    match fs.csvFiles label_info_path with
    | none => .error .manifestMissing
    | some df0 =>
      .ok (load_data_loop fs primary_feature_dir tl (default_weights df0).rows
        ([], [], []))

/-- `load_train_data` from `prepare_data.py`, parametrised by the sklearn
`StandardScaler` implementation `fit_transform : X ↦ (scaled X, fitted
scaler)`: loads via `load_data`; when `scaler is None`, fits a new scaler on
the feature matrix and returns the scaled matrix with that scaler; otherwise
returns the raw matrix and the supplied scaler.  (The Python defaults
`label_info_path="data/metadata/label_downsampled.csv"`,
`primary_feature_dir="data/downsampled_features"` are fixed by callers here.) -/
def load_train_data {S : Type}
    (fit_transform : List (List Rat) → List (List Rat) × S)
    (fs : FileSystem) (label_info_path primary_feature_dir : String)
    (target_length : Option Nat) (scaler : Option S) :
    Except LoadError (List (List Rat) × List Int × List Rat × S) :=
  match load_data fs label_info_path primary_feature_dir target_length with
  | .error e => .error e
  | .ok (X_train, y_train, sample_weights) =>
    match scaler with
    | none =>
      let p := fit_transform X_train
      .ok (p.1, y_train, sample_weights, p.2)
    | some s => .ok (X_train, y_train, sample_weights, s)

/-- `load_eval_data` from `prepare_data.py`, parametrised by the scaler's
`transform`: loads via `load_data` (discarding the sample weights), applies
`scaler.transform` when a scaler is supplied, and returns `(X_eval, y_eval)`
with no scaler. -/
def load_eval_data {S : Type}
    (transform : S → List (List Rat) → List (List Rat))
    (fs : FileSystem) (label_info_path primary_feature_dir : String)
    (target_length : Option Nat) (scaler : Option S) :
    Except LoadError (List (List Rat) × List Int) :=
  match load_data fs label_info_path primary_feature_dir target_length with
  | .error e => .error e
  | .ok (X_eval, y_eval, _) =>
    match scaler with
    | none => .ok (X_eval, y_eval)
    | some s => .ok (transform s X_eval, y_eval)

/-- `load_test_data` from `prepare_data.py`: identical to `load_eval_data`
except for its default manifest path. -/
def load_test_data {S : Type}
    (transform : S → List (List Rat) → List (List Rat))
    (fs : FileSystem) (label_info_path primary_feature_dir : String)
    (target_length : Option Nat) (scaler : Option S) :
    Except LoadError (List (List Rat) × List Int) :=
  match load_data fs label_info_path primary_feature_dir target_length with
  | .error e => .error e
  | .ok (X_test, y_test, _) =>
    match scaler with
    | none => .ok (X_test, y_test)
    | some s => .ok (transform s X_test, y_test)

/-- Modelled sklearn library call `accuracy_score(y_true, y_pred)`: the
fraction of positions where prediction and truth agree. -/
def accuracy_score (y_true y_pred : List Int) : Rat :=
  (((y_true.zip y_pred).countP (fun p => p.1 == p.2) : Nat) : Rat) /
    (y_true.length : Rat)

/-- Modelled sklearn library call
`precision_score(y_true, y_pred, average='binary')` with positive label `1`:
true positives over predicted positives (`0` when nothing is predicted
positive, the metric library's zero-division policy; `Rat` division by zero
is `0`). -/
def precision_score (y_true y_pred : List Int) : Rat :=
  (((y_true.zip y_pred).countP (fun p => p.1 == 1 && p.2 == 1) : Nat) : Rat) /
    ((y_pred.countP (fun v => v == 1) : Nat) : Rat)

/-- Modelled sklearn library call
`recall_score(y_true, y_pred, average='binary')` with positive label `1`:
true positives over actual positives. -/
def recall_score (y_true y_pred : List Int) : Rat :=
  (((y_true.zip y_pred).countP (fun p => p.1 == 1 && p.2 == 1) : Nat) : Rat) /
    ((y_true.countP (fun v => v == 1) : Nat) : Rat)

/-- Modelled sklearn library call `f1_score(y_true, y_pred,
average='binary')`: harmonic mean of precision and recall (`0` when both
vanish). -/
def f1_score (y_true y_pred : List Int) : Rat :=
  let p := precision_score y_true y_pred
  let r := recall_score y_true y_pred
  2 * p * r / (p + r)

/-- The thresholding step of `evaluate_model_with_threshold`:
`y_eval_pred = (y_scores > threshold).astype(int)`, elementwise — `1` exactly
when the score is strictly greater than the threshold, else `0`. -/
def threshold_binarize (y_scores : List Rat) (threshold : Rat) : List Int :=
  y_scores.map (fun s => if s > threshold then 1 else 0)

/-- `evaluate_model_with_threshold(model, X_eval, y_eval, threshold)` from
`RF_train_and_evaluate.py`, with the model abstracted to its positive-class
probability map `model : α → Rat` (so `model.predict_proba(X_eval)[:, 1]`
becomes `X_eval.map model`): binarizes the scores at the threshold and
returns `(accuracy, precision, recall, f1)`.  (The Python default
`threshold=0.1` is always overridden by the caller in `main`.) -/
def evaluate_model_with_threshold {α : Type} (model : α → Rat)
    (X_eval : List α) (y_eval : List Int) (threshold : Rat) :
    Rat × Rat × Rat × Rat :=
  let y_scores := X_eval.map model
  let y_eval_pred := threshold_binarize y_scores threshold
  (accuracy_score y_eval y_eval_pred,
   precision_score y_eval y_eval_pred,
   recall_score y_eval y_eval_pred,
   f1_score y_eval y_eval_pred)

/-- `np.argsort(importances)`: the indices `0, …, n-1` sorted by ascending
importance value.  (numpy's default quicksort leaves the relative order of
tied values unspecified; this model breaks ties deterministically, which no
theorem below depends on.) -/
def argsort (importances : List Rat) : List Nat :=
  List.insertionSort (fun i j => importances.getD i 0 ≤ importances.getD j 0)
    (List.range importances.length)

/-- `indices = np.argsort(importances)[::-1][:20]` from `main`: the indices
of the top-20 features by descending importance. -/
def top_indices (importances : List Rat) : List Nat :=
  ((argsort importances).reverse).take 20

/-- `feature_importance = [[indices[f], importances[indices[f]]] for f in
range(len(indices))]` from `main`: the rows written (under the header
`Feature,Importance`) to `data/visualization/feature_importance_downsampled.csv`. -/
def feature_importance_rows (importances : List Rat) : List (Nat × Rat) :=
  (top_indices importances).map (fun i => (i, importances.getD i 0))

/-- The manifest path `main` hands to `get_max_sequence_length`. -/
def main_length_manifest : String := "data/metadata/label_downsampled.csv"

/-- The manifest path `main` hands to `load_train_data`. -/
def main_train_manifest : String := "data/metadata/train_downsample.csv"

/-- The manifest path `main` hands to `load_eval_data`. -/
def main_eval_manifest : String := "data/metadata/eval_downsample.csv"

/-- The feature directory `main` hands to every loading call. -/
def main_feature_dir : String := "data/downsampled_features"

/-- The data that `main`'s loading phase leaves in scope before training. -/
structure MainLoadResult (S : Type) where
  target_length : Nat
  X_train : List (List Rat)
  y_train : List Int
  sample_weights_train : List Rat
  scaler : S
  X_eval : List (List Rat)
  y_eval : List Int

/-- The data-loading phase of `main` in `RF_train_and_evaluate.py`,
parametrised by the `StandardScaler` operations: computes `target_length`
with `get_max_sequence_length` on `data/metadata/label_downsampled.csv`,
loads the training set from `data/metadata/train_downsample.csv` with
`load_train_data` (no scaler supplied, so a new one is fitted), then loads
the evaluation set from `data/metadata/eval_downsample.csv` with
`load_eval_data`, supplying the fitted scaler. -/
def main_load {S : Type}
    (fit_transform : List (List Rat) → List (List Rat) × S)
    (transform : S → List (List Rat) → List (List Rat))
    (fs : FileSystem) : Except LoadError (MainLoadResult S) :=
  match get_max_sequence_length fs main_length_manifest main_feature_dir with
  | .error e => .error e
  | .ok target_length =>
    match load_train_data fit_transform fs main_train_manifest
        main_feature_dir (some target_length) none with
    | .error e => .error e
    | .ok (X_train, y_train, sample_weights_train, scaler) =>
      match load_eval_data transform fs main_eval_manifest main_feature_dir
          (some target_length) (some scaler) with
      | .error e => .error e
      | .ok (X_eval, y_eval) =>
        .ok ⟨target_length, X_train, y_train, sample_weights_train, scaler,
          X_eval, y_eval⟩

/-!
## Concrete file systems for instance checks
-/

/-- A file system whose manifest `labels.csv` references three arrays with
first dimensions 3, 7 and 5, all present in `feats`. -/
def exampleFS375 : FileSystem where
  npyFiles := fun p =>
    if p = "feats/a.npy" then some ⟨1, List.replicate 3 [0]⟩
    else if p = "feats/b.npy" then some ⟨1, List.replicate 7 [0]⟩
    else if p = "feats/c.npy" then some ⟨1, List.replicate 5 [0]⟩
    else none
  csvFiles := fun p =>
    if p = "labels.csv" then
      some ⟨[⟨"a.npy", 0, 1⟩, ⟨"b.npy", 0, 1⟩, ⟨"c.npy", 0, 1⟩], true⟩
    else none

/-- A file system whose manifest `m.csv` references one existing feature file
(`a.npy`, a `1 × 2` array) and one missing one. -/
def exampleFSskip : FileSystem where
  npyFiles := fun p =>
    if p = "feats/a.npy" then some ⟨2, [[1, 2]]⟩ else none
  csvFiles := fun p =>
    if p = "m.csv" then
      some ⟨[⟨"a.npy", 4, 2⟩, ⟨"missing.npy", 5, 3⟩], true⟩
    else none

/-- A file system whose manifest `w.csv` lacks the weight column (so the
recorded per-row weights, here 9, are not real data and must be ignored by
the loader). -/
def exampleFSnoW : FileSystem where
  npyFiles := fun p =>
    if p = "feats/a.npy" then some ⟨2, [[1, 2]]⟩ else none
  csvFiles := fun p =>
    if p = "w.csv" then
      some ⟨[⟨"a.npy", 4, 9⟩, ⟨"missing.npy", 5, 9⟩], false⟩
    else none

/-- A file system for `main`'s wiring: the manifest `main` hands to
`get_max_sequence_length` references a 2-row array, while the training
manifest references a 4-row array; the evaluation manifest reuses the
latter. -/
def exampleFSmain : FileSystem where
  npyFiles := fun p =>
    if p = "data/downsampled_features/a.npy" then
      some ⟨1, List.replicate 2 [0]⟩
    else if p = "data/downsampled_features/b.npy" then
      some ⟨1, List.replicate 4 [0]⟩
    else none
  csvFiles := fun p =>
    if p = main_length_manifest then some ⟨[⟨"a.npy", 0, 1⟩], true⟩
    else if p = main_train_manifest then some ⟨[⟨"b.npy", 1, 1⟩], true⟩
    else if p = main_eval_manifest then some ⟨[⟨"b.npy", 0, 1⟩], true⟩
    else none

/-!
## Characterization lemmas

`resolved` is not a translation of repository code: it is the specification
vocabulary — the sub-sequence of manifest rows whose feature file exists,
paired with the loaded array — against which the loop of `load_data` and the
fold of `get_max_sequence_length` are proved correct.
-/

/-- The manifest rows whose resolved feature file exists, in manifest order,
each paired with its loaded array. -/
def resolved (fs : FileSystem) (primary_feature_dir : String)
    (rows : List ManifestRow) : List (ManifestRow × NpArr) :=
  rows.filterMap (fun row =>
    (fs.npyFiles (resolve_path primary_feature_dir row)).map (fun a => (row, a)))

theorem resolved_nil (fs : FileSystem) (dir : String) :
    resolved fs dir [] = [] := rfl

theorem resolved_cons (fs : FileSystem) (dir : String) (row : ManifestRow)
    (rest : List ManifestRow) :
    resolved fs dir (row :: rest) =
      (match fs.npyFiles (resolve_path dir row) with
        | none => resolved fs dir rest
        | some a => (row, a) :: resolved fs dir rest) := by
  cases h : fs.npyFiles (resolve_path dir row) <;>
    simp [resolved, List.filterMap_cons, h]

/-- The loop of `load_data` appends, to each accumulator, exactly the maps of
the resolved rows: flattened normalized features, labels, weights, in
manifest order. -/
theorem load_data_loop_eq (fs : FileSystem) (dir : String) (tl : Nat)
    (rows : List ManifestRow) (acc : List (List Rat) × List Int × List Rat) :
    load_data_loop fs dir tl rows acc =
      (acc.1 ++ (resolved fs dir rows).map (fun p => flatten_normalized tl p.2),
       acc.2.1 ++ (resolved fs dir rows).map (fun p => p.1.label),
       acc.2.2 ++ (resolved fs dir rows).map (fun p => p.1.weight)) := by
  induction rows generalizing acc with
  | nil => simp [load_data_loop, resolved_nil]
  | cons row rest ih =>
    cases h : fs.npyFiles (resolve_path dir row) with
    | none =>
      simp [load_data_loop, h, ih, resolved_cons]
    | some a =>
      simp [load_data_loop, h, ih, resolved_cons]

/-- `load_data` with a specified target length and a readable manifest
returns the three parallel lists over the resolved rows of the
weight-defaulted manifest. -/
theorem load_data_ok (fs : FileSystem) (p dir : String) (tl : Nat)
    (df : Manifest) (hcsv : fs.csvFiles p = some df) :
    load_data fs p dir (some tl) =
      .ok ((resolved fs dir (default_weights df).rows).map
            (fun q => flatten_normalized tl q.2),
           (resolved fs dir (default_weights df).rows).map (fun q => q.1.label),
           (resolved fs dir (default_weights df).rows).map (fun q => q.1.weight)) := by
  simp [load_data, hcsv, load_data_loop_eq]

/-- The fold of `get_max_sequence_length` computes `foldl max` over the
first-dimension sizes of the resolved rows. -/
theorem get_max_fold_eq (fs : FileSystem) (dir : String)
    (rows : List ManifestRow) (init : Nat) :
    rows.foldl
      (fun max_length row =>
        match fs.npyFiles (resolve_path dir row) with
        | none => max_length
        | some feature_data => max max_length feature_data.rows.length)
      init =
    ((resolved fs dir rows).map (fun q => q.2.rows.length)).foldl max init := by
  induction rows generalizing init with
  | nil => simp [resolved_nil]
  | cons row rest ih =>
    cases h : fs.npyFiles (resolve_path dir row) with
    | none => simp [h, ih, resolved_cons]
    | some a => simp [h, ih, resolved_cons]

theorem init_le_foldl_max (l : List Nat) (init : Nat) :
    init ≤ l.foldl max init := by
  induction l generalizing init with
  | nil => simp
  | cons x xs ih => exact le_trans (le_max_left init x) (ih (max init x))

theorem le_foldl_max_of_mem {l : List Nat} {x : Nat} (hx : x ∈ l)
    (init : Nat) : x ≤ l.foldl max init := by
  induction l generalizing init with
  | nil => cases hx
  | cons y ys ih =>
    rcases List.mem_cons.mp hx with rfl | hmem
    · exact le_trans (le_max_right init x) (init_le_foldl_max ys (max init x))
    · exact ih hmem (max init y)

theorem foldl_max_eq_init_or_mem (l : List Nat) (init : Nat) :
    l.foldl max init = init ∨ l.foldl max init ∈ l := by
  induction l generalizing init with
  | nil => exact Or.inl rfl
  | cons x xs ih =>
    simp only [List.foldl_cons]
    rcases ih (max init x) with h | h
    · rcases le_total x init with hle | hle
      · rw [max_eq_left hle] at h ⊢
        exact Or.inl h
      · rw [max_eq_right hle] at h ⊢
        exact Or.inr (List.mem_cons.mpr (Or.inl h))
    · exact Or.inr (List.mem_cons_of_mem x h)

/-- `normalize_length` always produces exactly `target_length` rows. -/
theorem normalize_length_rows_length (tl : Nat) (a : NpArr) :
    (normalize_length tl a).rows.length = tl := by
  unfold normalize_length
  rcases lt_trichotomy a.rows.length tl with h | h | h
  · simp [Nat.not_lt.mpr (le_of_lt h), h]; omega
  · simp [h]
  · simp [h]; omega

theorem normalize_length_ncols (tl : Nat) (a : NpArr) :
    (normalize_length tl a).ncols = a.ncols := by
  unfold normalize_length
  rcases lt_trichotomy a.rows.length tl with h | h | h
  · simp [Nat.not_lt.mpr (le_of_lt h), h]
  · simp [h]
  · simp [h]

/-- Normalization preserves rectangularity. -/
theorem normalize_length_WF (tl : Nat) (a : NpArr) (hwf : a.WF) :
    (normalize_length tl a).WF := by
  unfold normalize_length
  rcases lt_trichotomy a.rows.length tl with h | h | h
  · intro r hr
    simp only [Nat.not_lt.mpr (le_of_lt h), if_false, h, if_true] at hr ⊢
    rcases List.mem_append.mp hr with hmem | hmem
    · exact hwf r hmem
    · simp [List.eq_of_mem_replicate hmem]
  · simp only [NpArr.WF, h, lt_irrefl, if_false]
    exact hwf
  · intro r hr
    simp only [h, if_true] at hr ⊢
    exact hwf r (List.mem_of_mem_take hr)

/-- For a rectangular array, the flattened normalized vector has exactly
`target_length * ncols` entries. -/
theorem flatten_normalized_length (tl : Nat) (a : NpArr) (hwf : a.WF) :
    (flatten_normalized tl a).length = tl * a.ncols := by
  have hwf2 := normalize_length_WF tl a hwf
  have hlen := normalize_length_rows_length tl a
  have hcols := normalize_length_ncols tl a
  unfold flatten_normalized
  rw [List.length_flatten]
  have : (normalize_length tl a).rows.map List.length =
      List.replicate tl a.ncols := by
    apply List.eq_replicate_iff.mpr
    constructor
    · simp [hlen]
    · intro b hb
      rcases List.mem_map.mp hb with ⟨r, hr, rfl⟩
      rw [hwf2 r hr, hcols]
  rw [this, List.sum_replicate, smul_eq_mul]

/-!
## Claim theorems
-/

/-- C1: For every 2-D input array, the per-sample normalization in
`load_data` yields an array with exactly `target_length` rows: when
`sequence_length > target_length` the first `target_length` rows are kept in
order, when `sequence_length < target_length` exactly
`target_length - sequence_length` all-zero rows are appended after the
original rows, and when `sequence_length = target_length` the array is
unchanged; the result is then flattened to a 1-D vector of length
`target_length * feature_dim`. -/
theorem C1_normalize_and_flatten (a : NpArr) (target_length : Nat)
    (hwf : a.WF) :
    (normalize_length target_length a).rows.length = target_length ∧
    (a.rows.length > target_length →
      (normalize_length target_length a).rows = a.rows.take target_length) ∧
    (a.rows.length < target_length →
      ∃ pad, (normalize_length target_length a).rows = a.rows ++ pad ∧
        pad.length = target_length - a.rows.length ∧
        ∀ r ∈ pad, (∀ x ∈ r, x = 0) ∧ r.length = a.ncols) ∧
    (a.rows.length = target_length → normalize_length target_length a = a) ∧
    (flatten_normalized target_length a).length = target_length * a.ncols := by
  refine ⟨normalize_length_rows_length _ _, ?_, ?_, ?_,
    flatten_normalized_length _ _ hwf⟩
  · intro h
    unfold normalize_length
    simp [h]
  · intro h
    refine ⟨List.replicate (target_length - a.rows.length)
      (List.replicate a.ncols 0), ?_, by simp, ?_⟩
    · unfold normalize_length
      simp [h, Nat.not_lt.mpr (le_of_lt h)]
    · intro r hr
      rw [List.eq_of_mem_replicate hr]
      exact ⟨fun x hx => List.eq_of_mem_replicate hx, by simp⟩
  · intro h
    unfold normalize_length
    simp [h]

/-- Witness for C1 at the concrete rectangular `3 × 2` array
`[[1,2],[3,4],[5,6]]` and `target_length = 5`. -/
theorem C1_normalize_and_flatten_witness :
    (NpArr.mk 2 [[1, 2], [3, 4], [5, 6]]).WF ∧
    (flatten_normalized 5 (NpArr.mk 2 [[1, 2], [3, 4], [5, 6]])).length =
      5 * 2 := by
  refine ⟨by decide, ?_⟩
  exact (C1_normalize_and_flatten (NpArr.mk 2 [[1, 2], [3, 4], [5, 6]]) 5
    (by decide)).2.2.2.2

/-- C2: For every model, evaluation set, and threshold `t`,
`evaluate_model_with_threshold` classifies a sample as positive exactly when
the predicted positive-class probability is strictly greater than `t`
(`score > t`, not `>=`), and otherwise as negative; in particular at
threshold `0.1` a sample with `predict_proba` equal to `0.1` is classified
negative.  (The metrics returned by `evaluate_model_with_threshold` are
computed from exactly this binarization.) -/
theorem C2_strict_threshold {α : Type} (model : α → Rat) (X_eval : List α)
    (y_eval : List Int) (threshold : Rat) (i : Nat)
    (hi : i < X_eval.length) :
    ((threshold_binarize (X_eval.map model) threshold).getD i 0 = 1 ↔
      model (X_eval.get ⟨i, hi⟩) > threshold) ∧
    ((threshold_binarize (X_eval.map model) threshold).getD i 0 = 0 ↔
      ¬ model (X_eval.get ⟨i, hi⟩) > threshold) ∧
    evaluate_model_with_threshold model X_eval y_eval threshold =
      (accuracy_score y_eval (threshold_binarize (X_eval.map model) threshold),
       precision_score y_eval (threshold_binarize (X_eval.map model) threshold),
       recall_score y_eval (threshold_binarize (X_eval.map model) threshold),
       f1_score y_eval (threshold_binarize (X_eval.map model) threshold)) ∧
    threshold_binarize [(1 : Rat) / 10] ((1 : Rat) / 10) = [0] := by
  have hm : i < (X_eval.map model).length := by simpa using hi
  have key : (threshold_binarize (X_eval.map model) threshold).getD i 0 =
      if model (X_eval.get ⟨i, hi⟩) > threshold then 1 else 0 := by
    unfold threshold_binarize
    simp [List.getD_eq_getElem?_getD, List.getElem?_map,
      List.getElem?_eq_getElem hi, List.getElem?_eq_getElem hm]
  refine ⟨?_, ?_, rfl, ?_⟩
  · rw [key]
    by_cases hc : model (X_eval.get ⟨i, hi⟩) > threshold <;> simp [hc]
  · rw [key]
    by_cases hc : model (X_eval.get ⟨i, hi⟩) > threshold <;> simp [hc]
  · unfold threshold_binarize
    norm_num

/-- Witness for C2: a single sample whose positive-class probability is
exactly `0.1`, evaluated at threshold `0.1`, is classified `0`. -/
theorem C2_strict_threshold_witness :
    (0 : Nat) < [(0 : Nat)].length ∧
    ((threshold_binarize ([(0 : Nat)].map (fun _ => (1 : Rat) / 10))
        ((1 : Rat) / 10)).getD 0 0 = 0 ↔
      ¬ ((fun _ => (1 : Rat) / 10) ([(0 : Nat)].get ⟨0, by decide⟩) >
        (1 : Rat) / 10)) := by
  refine ⟨by decide, ?_⟩
  exact (C2_strict_threshold (fun _ => (1 : Rat) / 10) [(0 : Nat)] [0]
    ((1 : Rat) / 10) 0 (by decide)).2.1

theorem resolved_mem {fs : FileSystem} {dir : String}
    {rows : List ManifestRow} {q : ManifestRow × NpArr}
    (hq : q ∈ resolved fs dir rows) :
    q.1 ∈ rows ∧ fs.npyFiles (resolve_path dir q.1) = some q.2 := by
  unfold resolved at hq
  rcases List.mem_filterMap.mp hq with ⟨row, hrow, hmap⟩
  cases h : fs.npyFiles (resolve_path dir row) with
  | none => rw [h] at hmap; cases hmap
  | some a =>
    rw [h] at hmap
    simp only [Option.map_some', Option.some.injEq] at hmap
    rw [← hmap]
    exact ⟨hrow, h⟩

theorem mem_resolved {fs : FileSystem} {dir : String}
    {rows : List ManifestRow} {row : ManifestRow} {a : NpArr}
    (hrow : row ∈ rows) (ha : fs.npyFiles (resolve_path dir row) = some a) :
    (row, a) ∈ resolved fs dir rows := by
  unfold resolved
  exact List.mem_filterMap.mpr ⟨row, hrow, by rw [ha]; rfl⟩

/-- The rows that survive the loader are a sub-sequence of the manifest rows:
skipping preserves the original manifest order. -/
theorem resolved_fst_sublist (fs : FileSystem) (dir : String)
    (rows : List ManifestRow) :
    ((resolved fs dir rows).map (fun q => q.1)).Sublist rows := by
  induction rows with
  | nil => simp [resolved_nil]
  | cons row rest ih =>
    rw [resolved_cons]
    cases h : fs.npyFiles (resolve_path dir row) with
    | none => exact ih.cons row
    | some a => exact ih.cons₂ row

/-- Resolving is insensitive to the weight values of the manifest rows. -/
theorem resolved_default_weights (fs : FileSystem) (dir : String)
    (rows : List ManifestRow) :
    resolved fs dir (rows.map (fun r => ⟨r.feature_file, r.label, 1⟩)) =
      (resolved fs dir rows).map
        (fun q => (⟨q.1.feature_file, q.1.label, 1⟩, q.2)) := by
  induction rows with
  | nil => rfl
  | cons row rest ih =>
    rw [List.map_cons, resolved_cons, resolved_cons]
    cases h : fs.npyFiles (resolve_path dir
        (⟨row.feature_file, row.label, 1⟩ : ManifestRow)) with
    | none =>
      have h2 : fs.npyFiles (resolve_path dir row) = none := h
      rw [h2, ih]
    | some a =>
      have h2 : fs.npyFiles (resolve_path dir row) = some a := h
      rw [h2, List.map_cons, ih]

/-- Transfer of a uniform row length across a shape-preserving matrix map. -/
theorem map_length_all {X1 X2 : List (List Rat)}
    (h : X2.map List.length = X1.map List.length) {L : Nat}
    (hall : ∀ r ∈ X1, r.length = L) : ∀ r ∈ X2, r.length = L := by
  intro r hr
  have hmem : r.length ∈ X2.map List.length := List.mem_map_of_mem _ hr
  rw [h] at hmem
  rcases List.mem_map.mp hmem with ⟨r1, hr1, he⟩
  rw [← he]
  exact hall r1 hr1

theorem load_train_data_none {S : Type}
    (fit_transform : List (List Rat) → List (List Rat) × S)
    {fs : FileSystem} {p dir : String} {tl : Option Nat}
    {X : List (List Rat)} {y : List Int} {w : List Rat}
    (h : load_data fs p dir tl = .ok (X, y, w)) :
    load_train_data fit_transform fs p dir tl none =
      .ok ((fit_transform X).1, y, w, (fit_transform X).2) := by
  simp [load_train_data, h]

theorem load_train_data_some {S : Type}
    (fit_transform : List (List Rat) → List (List Rat) × S)
    {fs : FileSystem} {p dir : String} {tl : Option Nat}
    {X : List (List Rat)} {y : List Int} {w : List Rat} (s : S)
    (h : load_data fs p dir tl = .ok (X, y, w)) :
    load_train_data fit_transform fs p dir tl (some s) = .ok (X, y, w, s) := by
  simp [load_train_data, h]

theorem load_eval_data_some {S : Type}
    (transform : S → List (List Rat) → List (List Rat))
    {fs : FileSystem} {p dir : String} {tl : Option Nat}
    {X : List (List Rat)} {y : List Int} {w : List Rat} (s : S)
    (h : load_data fs p dir tl = .ok (X, y, w)) :
    load_eval_data transform fs p dir tl (some s) = .ok (transform s X, y) := by
  simp [load_eval_data, h]

theorem load_eval_data_none {S : Type}
    (transform : S → List (List Rat) → List (List Rat))
    {fs : FileSystem} {p dir : String} {tl : Option Nat}
    {X : List (List Rat)} {y : List Int} {w : List Rat}
    (h : load_data fs p dir tl = .ok (X, y, w)) :
    load_eval_data transform fs p dir tl none = .ok (X, y) := by
  simp [load_eval_data, h]

theorem load_test_data_some {S : Type}
    (transform : S → List (List Rat) → List (List Rat))
    {fs : FileSystem} {p dir : String} {tl : Option Nat}
    {X : List (List Rat)} {y : List Int} {w : List Rat} (s : S)
    (h : load_data fs p dir tl = .ok (X, y, w)) :
    load_test_data transform fs p dir tl (some s) = .ok (transform s X, y) := by
  simp [load_test_data, h]

theorem load_test_data_none {S : Type}
    (transform : S → List (List Rat) → List (List Rat))
    {fs : FileSystem} {p dir : String} {tl : Option Nat}
    {X : List (List Rat)} {y : List Int} {w : List Rat}
    (h : load_data fs p dir tl = .ok (X, y, w)) :
    load_test_data transform fs p dir tl none = .ok (X, y) := by
  simp [load_test_data, h]

/-- C3: `get_max_sequence_length` returns the maximum first-dimension size
over all manifest rows whose feature file resolves to an existing file (rows
with a missing file are skipped with a warning and do not contribute), and
returns `0` when no manifest row resolves to an existing file; for a
manifest of arrays with first dimensions `{3, 7, 5}` it returns `7`. -/
theorem C3_get_max_sequence_length (fs : FileSystem) (p dir : String)
    (df : Manifest) (hcsv : fs.csvFiles p = some df) :
    (∃ m, get_max_sequence_length fs p dir = .ok m ∧
      (∀ q ∈ resolved fs dir df.rows, q.2.rows.length ≤ m) ∧
      (resolved fs dir df.rows = [] → m = 0) ∧
      (m = 0 ∨ ∃ q ∈ resolved fs dir df.rows, q.2.rows.length = m)) ∧
    get_max_sequence_length exampleFS375 "labels.csv" "feats" = .ok 7 := by
  refine ⟨?_, by rfl⟩
  refine ⟨((resolved fs dir df.rows).map (fun q => q.2.rows.length)).foldl max 0,
    ?_, ?_, ?_, ?_⟩
  · simp only [get_max_sequence_length, hcsv]
    rw [get_max_fold_eq]
  · intro q hq
    exact le_foldl_max_of_mem
      (List.mem_map_of_mem (fun q : ManifestRow × NpArr => q.2.rows.length) hq) 0
  · intro h
    simp [h]
  · rcases foldl_max_eq_init_or_mem
      ((resolved fs dir df.rows).map (fun q => q.2.rows.length)) 0 with h | h
    · exact Or.inl h
    · rcases List.mem_map.mp h with ⟨q, hq, hval⟩
      exact Or.inr ⟨q, hq, hval⟩

/-- Witness for C3 at the `{3, 7, 5}` manifest. -/
theorem C3_get_max_sequence_length_witness :
    exampleFS375.csvFiles "labels.csv" =
      some ⟨[⟨"a.npy", 0, 1⟩, ⟨"b.npy", 0, 1⟩, ⟨"c.npy", 0, 1⟩], true⟩ ∧
    (∃ m, get_max_sequence_length exampleFS375 "labels.csv" "feats" = .ok m ∧
      (∀ q ∈ resolved exampleFS375 "feats"
          (Manifest.mk [⟨"a.npy", 0, 1⟩, ⟨"b.npy", 0, 1⟩, ⟨"c.npy", 0, 1⟩]
            true).rows,
        q.2.rows.length ≤ m) ∧
      (resolved exampleFS375 "feats"
          (Manifest.mk [⟨"a.npy", 0, 1⟩, ⟨"b.npy", 0, 1⟩, ⟨"c.npy", 0, 1⟩]
            true).rows = [] → m = 0) ∧
      (m = 0 ∨ ∃ q ∈ resolved exampleFS375 "feats"
          (Manifest.mk [⟨"a.npy", 0, 1⟩, ⟨"b.npy", 0, 1⟩, ⟨"c.npy", 0, 1⟩]
            true).rows,
        q.2.rows.length = m)) ∧
    get_max_sequence_length exampleFS375 "labels.csv" "feats" = .ok 7 := by
  refine ⟨by rfl, ?_, ?_⟩
  · exact (C3_get_max_sequence_length exampleFS375 "labels.csv" "feats"
      (Manifest.mk [⟨"a.npy", 0, 1⟩, ⟨"b.npy", 0, 1⟩, ⟨"c.npy", 0, 1⟩] true)
      (by rfl)).1
  · exact (C3_get_max_sequence_length exampleFS375 "labels.csv" "feats"
      (Manifest.mk [⟨"a.npy", 0, 1⟩, ⟨"b.npy", 0, 1⟩, ⟨"c.npy", 0, 1⟩] true)
      (by rfl)).2

/-- C5: `load_data` skips each row whose referenced feature file does not
exist (warning-only, run continues) and returns three equal-length parallel
lists whose entries correspond position-by-position to the non-skipped
manifest rows in original manifest order (the surviving rows form a
sub-sequence of the manifest). -/
theorem C5_parallel_outputs_skip_missing (fs : FileSystem) (p dir : String)
    (tl : Nat) (df : Manifest) (hcsv : fs.csvFiles p = some df) :
    ∃ X y w, load_data fs p dir (some tl) = .ok (X, y, w) ∧
      X.length = y.length ∧ X.length = w.length ∧
      X = (resolved fs dir (default_weights df).rows).map
        (fun q => flatten_normalized tl q.2) ∧
      y = (resolved fs dir (default_weights df).rows).map
        (fun q => q.1.label) ∧
      w = (resolved fs dir (default_weights df).rows).map
        (fun q => q.1.weight) ∧
      (∀ q ∈ resolved fs dir (default_weights df).rows,
        fs.npyFiles (resolve_path dir q.1) = some q.2) ∧
      (∀ row ∈ (default_weights df).rows, ∀ a,
        fs.npyFiles (resolve_path dir row) = some a →
          (row, a) ∈ resolved fs dir (default_weights df).rows) ∧
      ((resolved fs dir (default_weights df).rows).map
        (fun q => q.1)).Sublist (default_weights df).rows := by
  refine ⟨_, _, _, load_data_ok fs p dir tl df hcsv, by simp, by simp,
    rfl, rfl, rfl, fun q hq => (resolved_mem hq).2,
    fun row hrow a ha => mem_resolved hrow ha,
    resolved_fst_sublist fs dir _⟩

/-- Witness for C5: a manifest referencing one existing and one missing file
yields exactly one row in each output. -/
theorem C5_parallel_outputs_skip_missing_witness :
    exampleFSskip.csvFiles "m.csv" =
      some ⟨[⟨"a.npy", 4, 2⟩, ⟨"missing.npy", 5, 3⟩], true⟩ ∧
    load_data exampleFSskip "m.csv" "feats" (some 2) =
      .ok ([[1, 2, 0, 0]], [4], [2]) ∧
    ∃ X y w, load_data exampleFSskip "m.csv" "feats" (some 2) =
      .ok (X, y, w) ∧ X.length = 1 ∧ X.length = y.length ∧
      X.length = w.length := by
  refine ⟨by rfl, by rfl, ?_⟩
  obtain ⟨X, y, w, hload, h1, h2, hX, -, -, -, -, -⟩ :=
    C5_parallel_outputs_skip_missing exampleFSskip "m.csv" "feats" 2
      (Manifest.mk [⟨"a.npy", 4, 2⟩, ⟨"missing.npy", 5, 3⟩] true) (by rfl)
  refine ⟨X, y, w, hload, ?_, h1, h2⟩
  rw [hX]
  rfl

/-- C6: `load_data` raises the fatal configuration error exactly when
`target_length` is not specified, and raises it before reading the manifest
or any feature file: the result on `target_length = none` does not depend on
the file system at all, so no partial output can be produced. -/
theorem C6_target_length_mandatory (fs : FileSystem) (p dir : String) :
    load_data fs p dir none = .error .targetLengthNone ∧
    (∀ fs2 : FileSystem, load_data fs p dir none = load_data fs2 p dir none) ∧
    ∀ tl : Nat, load_data fs p dir (some tl) ≠ .error .targetLengthNone := by
  refine ⟨rfl, fun _ => rfl, ?_⟩
  intro tl h
  cases hcsv : fs.csvFiles p with
  | none => simp [load_data, hcsv] at h
  | some df => simp [load_data, hcsv] at h

/-- Witness for C6 at a concrete file system. -/
theorem C6_target_length_mandatory_witness :
    load_data exampleFSskip "m.csv" "feats" none =
      .error .targetLengthNone :=
  (C6_target_length_mandatory exampleFSskip "m.csv" "feats").1

/-- C7: for every manifest whose columns do not include the weight column,
`load_data` returns a weight vector in which every entry equals `1.0` and
whose length equals the number of successfully loaded (non-skipped) rows;
the features and labels are exactly those produced from the raw manifest
rows, i.e. rows are otherwise processed identically.  (The one-time log line
is a stdout side effect outside the data model.) -/
theorem C7_missing_weight_column (fs : FileSystem) (p dir : String) (tl : Nat)
    (df : Manifest) (hcsv : fs.csvFiles p = some df)
    (hnoW : df.hasWeightColumn = false) :
    ∃ X y w, load_data fs p dir (some tl) = .ok (X, y, w) ∧
      w = List.replicate X.length 1 ∧
      (∀ v ∈ w, v = 1) ∧
      w.length = X.length ∧ y.length = X.length ∧
      X = (resolved fs dir df.rows).map (fun q => flatten_normalized tl q.2) ∧
      y = (resolved fs dir df.rows).map (fun q => q.1.label) := by
  have hdw : (default_weights df).rows =
      df.rows.map (fun r => ⟨r.feature_file, r.label, 1⟩) := by
    simp [default_weights, hnoW]
  have hload := load_data_ok fs p dir tl df hcsv
  rw [hdw, resolved_default_weights] at hload
  have hw : ((resolved fs dir df.rows).map
      (fun q : ManifestRow × NpArr =>
        ((⟨q.1.feature_file, q.1.label, 1⟩ : ManifestRow), q.2))).map
      (fun q => q.1.weight) =
      List.replicate ((resolved fs dir df.rows).length) (1 : Rat) := by
    simp only [List.map_map]
    exact List.eq_replicate_iff.mpr ⟨by simp, fun b hb => by
      rcases List.mem_map.mp hb with ⟨q, hq, rfl⟩
      rfl⟩
  refine ⟨_, _, _, hload, ?_, ?_, ?_, ?_, ?_, ?_⟩
  · rw [hw]
    simp
  · rw [hw]
    intro v hv
    exact List.eq_of_mem_replicate hv
  · rw [hw]
    simp
  · simp
  · rw [List.map_map]
    rfl
  · rw [List.map_map]
    rfl

/-- Witness for C7: a two-row manifest without the weight column, one row
resolvable, yields the weight vector `[1]`. -/
theorem C7_missing_weight_column_witness :
    exampleFSnoW.csvFiles "w.csv" =
      some ⟨[⟨"a.npy", 4, 9⟩, ⟨"missing.npy", 5, 9⟩], false⟩ ∧
    load_data exampleFSnoW "w.csv" "feats" (some 1) =
      .ok ([[1, 2]], [4], [1]) ∧
    ∃ X y w, load_data exampleFSnoW "w.csv" "feats" (some 1) = .ok (X, y, w) ∧
      w = List.replicate X.length 1 ∧ (∀ v ∈ w, v = 1) := by
  refine ⟨by rfl, by rfl, ?_⟩
  obtain ⟨X, y, w, hload, hrep, hall, -, -, -, -⟩ :=
    C7_missing_weight_column exampleFSnoW "w.csv" "feats" 1
      (Manifest.mk [⟨"a.npy", 4, 9⟩, ⟨"missing.npy", 5, 9⟩] false)
      (by rfl) (by rfl)
  exact ⟨X, y, w, hload, hrep, hall⟩

/-- Every feature vector produced by `load_data` over a feature directory of
rectangular arrays of common width `d` has exactly `target_length * d`
entries. -/
theorem load_data_row_lengths {fs : FileSystem} {p dir : String} {tl : Nat}
    {X : List (List Rat)} {y : List Int} {w : List Rat} {d : Nat}
    (hfs : ∀ q a, fs.npyFiles q = some a → a.ncols = d ∧ a.WF)
    (hld : load_data fs p dir (some tl) = .ok (X, y, w)) :
    ∀ r ∈ X, r.length = tl * d := by
  cases hcsv : fs.csvFiles p with
  | none => simp [load_data, hcsv] at hld
  | some df =>
    have h2 := load_data_ok fs p dir tl df hcsv
    rw [hld] at h2
    injection h2 with h3
    simp only [Prod.mk.injEq] at h3
    obtain ⟨hX, -, -⟩ := h3
    subst hX
    intro r hr
    rcases List.mem_map.mp hr with ⟨q, hq, rfl⟩
    obtain ⟨hcol, hwf⟩ := hfs _ _ (resolved_mem hq).2
    rw [flatten_normalized_length tl q.2 hwf, hcol]

/-- C8: the loader wrappers differ only in scaler handling: `load_train_data`
without a scaler fits a new scaler on its feature matrix and returns the
scaled matrix together with that scaler, while `load_eval_data` and
`load_test_data` never fit — given a scaler they return the supplied
scaler's transform of their loaded matrix (the scaler value itself is used
unchanged), and given no scaler they return the raw, unscaled features
without error. -/
theorem C8_wrapper_scaler_handling (S : Type)
    (fit_transform : List (List Rat) → List (List Rat) × S)
    (transform : S → List (List Rat) → List (List Rat))
    (fs : FileSystem) (p dir : String) (tl : Option Nat)
    (X : List (List Rat)) (y : List Int) (w : List Rat)
    (hload : load_data fs p dir tl = .ok (X, y, w)) :
    load_train_data fit_transform fs p dir tl none =
      .ok ((fit_transform X).1, y, w, (fit_transform X).2) ∧
    (∀ s : S, load_eval_data transform fs p dir tl (some s) =
      .ok (transform s X, y)) ∧
    load_eval_data transform fs p dir tl none = .ok (X, y) ∧
    (∀ s : S, load_test_data transform fs p dir tl (some s) =
      .ok (transform s X, y)) ∧
    load_test_data transform fs p dir tl none = .ok (X, y) :=
  ⟨load_train_data_none fit_transform hload,
   fun s => load_eval_data_some transform s hload,
   load_eval_data_none transform hload,
   fun s => load_test_data_some transform s hload,
   load_test_data_none transform hload⟩

/-- Witness for C8 at a concrete file system and a concrete scaler
implementation. -/
theorem C8_wrapper_scaler_handling_witness :
    load_data exampleFSskip "m.csv" "feats" (some 2) =
      .ok ([[1, 2, 0, 0]], [4], [2]) ∧
    load_train_data (fun X => (X, (5 : Nat))) exampleFSskip "m.csv" "feats"
      (some 2) none = .ok ([[1, 2, 0, 0]], [4], [2], 5) ∧
    load_eval_data (fun (_ : Nat) X => X) exampleFSskip "m.csv" "feats"
      (some 2) none = .ok ([[1, 2, 0, 0]], [4]) := by
  refine ⟨by rfl, ?_, ?_⟩
  · exact (C8_wrapper_scaler_handling Nat (fun X => (X, 5)) (fun _ X => X)
      exampleFSskip "m.csv" "feats" (some 2) [[1, 2, 0, 0]] [4] [2]
      (by rfl)).1
  · exact (C8_wrapper_scaler_handling Nat (fun X => (X, 5)) (fun _ X => X)
      exampleFSskip "m.csv" "feats" (some 2) [[1, 2, 0, 0]] [4] [2]
      (by rfl)).2.2.1

/-- C10 (implicit): when `load_train_data` is called with an
already-constructed scaler, no scaler is fit and no transform is applied —
the returned training matrix is exactly the raw matrix produced by
`load_data`, and the supplied scaler is returned unchanged. -/
theorem C10_train_supplied_scaler (S : Type)
    (fit_transform : List (List Rat) → List (List Rat) × S)
    (fs : FileSystem) (p dir : String) (tl : Option Nat)
    (X : List (List Rat)) (y : List Int) (w : List Rat) (s : S)
    (hload : load_data fs p dir tl = .ok (X, y, w)) :
    load_train_data fit_transform fs p dir tl (some s) = .ok (X, y, w, s) :=
  load_train_data_some fit_transform s hload

/-- Witness for C10: even with a `fit_transform` that would replace the
matrix, supplying a scaler makes `load_train_data` return the raw matrix
and that scaler. -/
theorem C10_train_supplied_scaler_witness :
    load_data exampleFSskip "m.csv" "feats" (some 2) =
      .ok ([[1, 2, 0, 0]], [4], [2]) ∧
    load_train_data (fun _ => ([[9]], (0 : Nat))) exampleFSskip "m.csv"
      "feats" (some 2) (some 7) = .ok ([[1, 2, 0, 0]], [4], [2], 7) :=
  ⟨by rfl, C10_train_supplied_scaler Nat (fun _ => ([[9]], 0)) exampleFSskip
    "m.csv" "feats" (some 2) [[1, 2, 0, 0]] [4] [2] 7 (by rfl)⟩

/-- C4 counterexample: the claim says the target length is computed from
"the same manifest from which the training set is then loaded", but `main`
computes it from `data/metadata/label_downsampled.csv` while loading the
training set from `data/metadata/train_downsample.csv`; on a file system
where the first manifest's maximum sequence length is 2 and the training
manifest's is 4, the pipeline uses target length 2, not the training
manifest's maximum 4. -/
theorem C4_counterexample :
    main_length_manifest ≠ main_train_manifest ∧
    main_load (fun X => (X, (0 : Nat))) (fun _ X => X) exampleFSmain =
      .ok ⟨2, [[0, 0]], [1], [1], 0, [[0, 0]], [0]⟩ ∧
    get_max_sequence_length exampleFSmain main_train_manifest
      main_feature_dir = .ok 4 ∧
    (2 : Nat) ≠ 4 := by
  exact ⟨by decide, by rfl, by rfl, by decide⟩

/-- C4 (amended): in `main`, the target length is computed by
`get_max_sequence_length` from `data/metadata/label_downsampled.csv` — a
different manifest from `data/metadata/train_downsample.csv`, from which the
training set is then loaded — and that single integer is passed unchanged as
`target_length` to both the training-data and the evaluation-data loading
calls, so that (with shape-preserving scaler operations over a feature
directory of rectangular arrays of common width `d`) the train and eval
feature matrices have identical flattened row dimensionality
`target_length * d`. -/
theorem C4_target_length_threading (S : Type)
    (fit_transform : List (List Rat) → List (List Rat) × S)
    (transform : S → List (List Rat) → List (List Rat))
    (fs : FileSystem) (res : MainLoadResult S)
    (hrun : main_load fit_transform transform fs = .ok res)
    (d : Nat)
    (hfs : ∀ q a, fs.npyFiles q = some a → a.ncols = d ∧ a.WF)
    (hft : ∀ X, ((fit_transform X).1).map List.length = X.map List.length)
    (htr : ∀ s X, (transform s X).map List.length = X.map List.length) :
    get_max_sequence_length fs main_length_manifest main_feature_dir =
      .ok res.target_length ∧
    load_train_data fit_transform fs main_train_manifest main_feature_dir
      (some res.target_length) none =
      .ok (res.X_train, res.y_train, res.sample_weights_train, res.scaler) ∧
    load_eval_data transform fs main_eval_manifest main_feature_dir
      (some res.target_length) (some res.scaler) =
      .ok (res.X_eval, res.y_eval) ∧
    (∀ r ∈ res.X_train, r.length = res.target_length * d) ∧
    (∀ r ∈ res.X_eval, r.length = res.target_length * d) := by
  unfold main_load at hrun
  split at hrun
  · exact absurd hrun (by simp)
  rename_i tl hg
  split at hrun
  · exact absurd hrun (by simp)
  rename_i quad Xt yt wt sc ht
  split at hrun
  · exact absurd hrun (by simp)
  rename_i pair Xe ye he
  simp only [Except.ok.injEq] at hrun
  subst hrun
  refine ⟨hg, ht, he, ?_, ?_⟩
  · cases hld : load_data fs main_train_manifest main_feature_dir
        (some tl) with
    | error e => simp [load_train_data, hld] at ht
    | ok trip =>
      obtain ⟨X0, y0, w0⟩ := trip
      have hlens := load_data_row_lengths hfs hld
      simp only [load_train_data, hld, Except.ok.injEq,
        Prod.mk.injEq] at ht
      obtain ⟨hXt, -, -, -⟩ := ht
      rw [← hXt]
      exact map_length_all (hft X0) hlens
  · cases hld : load_data fs main_eval_manifest main_feature_dir
        (some tl) with
    | error e => simp [load_eval_data, hld] at he
    | ok trip =>
      obtain ⟨X1, y1, w1⟩ := trip
      have hlens := load_data_row_lengths hfs hld
      simp only [load_eval_data, hld, Except.ok.injEq,
        Prod.mk.injEq] at he
      obtain ⟨hXe, -⟩ := he
      rw [← hXe]
      exact map_length_all (htr sc X1) hlens

/-- Witness for the amended C4 at `exampleFSmain` with a trivial scaler
implementation: the computed target length 2 is handed unchanged to both
loading calls and both matrices have rows of length `2 * 1`. -/
theorem C4_target_length_threading_witness :
    main_load (fun X => (X, (0 : Nat))) (fun _ X => X) exampleFSmain =
      .ok ⟨2, [[0, 0]], [1], [1], 0, [[0, 0]], [0]⟩ ∧
    get_max_sequence_length exampleFSmain main_length_manifest
      main_feature_dir = .ok 2 ∧
    (∀ r ∈ ([[(0 : Rat), 0]] : List (List Rat)), r.length = 2 * 1) := by
  have hfs : ∀ q a, exampleFSmain.npyFiles q = some a →
      a.ncols = 1 ∧ a.WF := by
    intro q a h
    simp only [exampleFSmain] at h
    split at h
    · injection h with h2
      subst h2
      exact ⟨rfl, by decide⟩
    · split at h
      · injection h with h2
        subst h2
        exact ⟨rfl, by decide⟩
      · cases h
  have happ := C4_target_length_threading Nat (fun X => (X, 0))
    (fun _ X => X) exampleFSmain ⟨2, [[0, 0]], [1], [1], 0, [[0, 0]], [0]⟩
    (by rfl) 1 hfs (fun X => rfl) (fun s X => rfl)
  exact ⟨by rfl, happ.1, happ.2.2.2.1⟩

/-- C9 counterexample: with tied importances `[1, 1]` the CSV rows are
`[(1, 1), (0, 1)]` — the importance values are equal, so the rows are not
strictly decreasing in importance.  (Each row also carries only the feature
index and the importance value; the 1-based rank is printed to stdout, not
written to the CSV.) -/
theorem C9_counterexample :
    feature_importance_rows [1, 1] = [(1, 1), (0, 1)] ∧
    ¬ List.Chain' (fun a b : Nat × Rat => a.2 > b.2)
      (feature_importance_rows [1, 1]) := by
  refine ⟨by decide, ?_⟩
  intro h
  have he : feature_importance_rows [1, 1] = [(1, 1), (0, 1)] := by decide
  rw [he] at h
  exact lt_irrefl (1 : Rat) (List.chain'_cons.mp h).1

/-- C9 (amended): the feature-importance CSV written to
`data/visualization/feature_importance_downsampled.csv` contains the top
`min 20 n` features ordered by non-increasing importance (strict decrease
fails on ties), one row per distinct feature index, each row giving the
feature index and its importance value (the rank is only the row position;
no rank column is written).  "Top" is the final conjunct: every valid
feature index that does not appear among the written rows has importance at
most that of every written row. -/
theorem C9_feature_importance_csv (importances : List Rat) :
    (feature_importance_rows importances).length =
      min 20 importances.length ∧
    List.Pairwise (fun a b : Nat × Rat => b.2 ≤ a.2)
      (feature_importance_rows importances) ∧
    (∀ q ∈ feature_importance_rows importances,
      q.1 < importances.length ∧ q.2 = importances.getD q.1 0) ∧
    List.Pairwise (fun a b : Nat × Rat => a.1 ≠ b.1)
      (feature_importance_rows importances) ∧
    (∀ j, j < importances.length →
      (∀ q ∈ feature_importance_rows importances, q.1 ≠ j) →
      ∀ q ∈ feature_importance_rows importances,
        importances.getD j 0 ≤ q.2) := by
  have hperm : (argsort importances).Perm (List.range importances.length) :=
    List.perm_insertionSort _ _
  have hlen : (argsort importances).length = importances.length := by
    simpa using hperm.length_eq
  have hsorted : List.Pairwise (fun i j : Nat =>
      importances.getD i 0 ≤ importances.getD j 0) (argsort importances) := by
    haveI : IsTotal Nat (fun i j : Nat =>
        importances.getD i 0 ≤ importances.getD j 0) :=
      ⟨fun i j => le_total _ _⟩
    haveI : IsTrans Nat (fun i j : Nat =>
        importances.getD i 0 ≤ importances.getD j 0) :=
      ⟨fun i j k h1 h2 => le_trans h1 h2⟩
    exact List.sorted_insertionSort _ _
  have hrev : List.Pairwise (fun i j : Nat =>
      importances.getD j 0 ≤ importances.getD i 0)
      ((argsort importances).reverse) := by
    rw [List.pairwise_reverse]
    exact hsorted
  have htop : List.Pairwise (fun i j : Nat =>
      importances.getD j 0 ≤ importances.getD i 0)
      (top_indices importances) :=
    List.Pairwise.sublist (List.take_sublist 20 _) hrev
  have hcross : ∀ i ∈ top_indices importances,
      ∀ j ∈ ((argsort importances).reverse).drop 20,
      importances.getD j 0 ≤ importances.getD i 0 := by
    have hsplit :
        ((argsort importances).reverse).take 20 ++
          ((argsort importances).reverse).drop 20 =
        (argsort importances).reverse :=
      List.take_append_drop 20 _
    rw [← hsplit] at hrev
    exact (List.pairwise_append.mp hrev).2.2
  have hndtop : (top_indices importances).Nodup := by
    refine List.Nodup.sublist (List.take_sublist 20 _) ?_
    have : (argsort importances).Nodup :=
      hperm.nodup_iff.mpr (List.nodup_range _)
    simpa using this
  refine ⟨?_, ?_, ?_, ?_, ?_⟩
  · unfold feature_importance_rows top_indices
    simp [hlen]
  · unfold feature_importance_rows
    exact List.Pairwise.map _ (fun i j hij => hij) htop
  · intro q hq
    unfold feature_importance_rows at hq
    rcases List.mem_map.mp hq with ⟨i, hi, rfl⟩
    refine ⟨?_, rfl⟩
    have h2 : i ∈ (argsort importances).reverse := List.mem_of_mem_take hi
    have h3 : i ∈ List.range importances.length :=
      hperm.mem_iff.mp (List.mem_reverse.mp h2)
    exact List.mem_range.mp h3
  · unfold feature_importance_rows
    exact List.Pairwise.map _ (fun i j hij => hij) hndtop
  · intro j hj hout q hq
    unfold feature_importance_rows at hq hout
    rcases List.mem_map.mp hq with ⟨i, hi, rfl⟩
    have hjni : j ∉ top_indices importances := by
      intro hjt
      exact hout (j, importances.getD j 0)
        (List.mem_map_of_mem (fun k => (k, importances.getD k 0)) hjt) rfl
    have hjD : j ∈ (argsort importances).reverse := by
      rw [List.mem_reverse]
      exact hperm.mem_iff.mpr (List.mem_range.mpr hj)
    have hjD2 : j ∈ ((argsort importances).reverse).take 20 ++
        ((argsort importances).reverse).drop 20 := by
      rw [List.take_append_drop]
      exact hjD
    rcases List.mem_append.mp hjD2 with h | h
    · exact absurd h hjni
    · exact hcross i hi j h
